import Mathlib

set_option linter.unusedVariables false

/-!
Verification development for the PantryBot tool-calling service.

The definitions below are a shallow embedding of the Python sources:
`claude_chat_handler.py` (the tool-calling orchestration loop),
`mcp_http_bridge.py` (the HTTP endpoints and tool router) and
`pantry_tools.py` (the Grocy / Spoonacular / filesystem tool adapters).

Modelling conventions:
* Python floats are modelled as rationals (ℚ).
* Python exceptions are modelled with `Except String`; a `.error` value is an
  exception propagating past the function, a returned error dictionary is an
  ordinary constructor of the function's result type.
* Network I/O is modelled by passing the remote service's (parsed) response,
  or an `Except`-wrapped response when the claim needs the failure path, as an
  explicit argument.
* Python strings are modelled as `String`; character-level manipulation
  (lowercasing, substring tests, `str.replace` with one-character patterns) is
  done on `List Char` via `String.data`.
-/

instance exceptDecEq {ε α : Type} [DecidableEq ε] [DecidableEq α] : DecidableEq (Except ε α) :=
  fun a b =>
  match a, b with
  | .ok x, .ok y =>
    if h : x = y then .isTrue (by rw [h]) else .isFalse (by intro hc; cases hc; exact h rfl)
  | .error x, .error y =>
    if h : x = y then .isTrue (by rw [h]) else .isFalse (by intro hc; cases hc; exact h rfl)
  | .ok _, .error _ => .isFalse (by intro hc; cases hc)
  | .error _, .ok _ => .isFalse (by intro hc; cases hc)

/-- Lowercase a string character by character (models Python `str.lower()` on
the ASCII inputs this service deals with). -/
def lowerChars (s : String) : List Char := s.data.map Char.toLower

/-- Boolean infix test on character lists (models Python's `in` on strings). -/
def isSubChars (needle haystack : List Char) : Bool := decide (needle <:+: haystack)

/-- Case-insensitive substring test: models Python `a.lower() in b.lower()`. -/
def substrCI (a b : String) : Bool := isSubChars (lowerChars a) (lowerChars b)

/-- Serialization of a rational for interpolation into message strings; stands
in for Python float formatting.  No claim depends on the rendered text. -/
def pyFloatStr (q : ℚ) : String := toString q

/-! ## The orchestration loop (`claude_chat_handler.call_claude_with_tools`) -/

/-- A scalar parameter value appearing in a tool_use block's input mapping. -/
inductive PVal
  | s (v : String)
  | n (v : ℚ)
  | b (v : Bool)
deriving DecidableEq, Repr

/-- The model-supplied `parameters` mapping of a tool request. -/
abbrev Params := List (String × PVal)

/-- A content block of a model turn: Claude responses consist of `text` and
`tool_use` blocks. -/
inductive ContentBlock
  | text (s : String)
  | tool_use (id : String) (name : String) (input : Params)
deriving DecidableEq, Repr

/-- One model turn: the `stop_reason == "tool_use"` flag the loop branches on,
and the content blocks in emission order. -/
structure ModelTurn where
  stop_tool_use : Bool
  content : List ContentBlock
deriving DecidableEq, Repr

/-- One `tool_result` entry of the user-role message the loop appends after a
tool round; `content` holds the `json.dumps` of the executor's result. -/
structure ToolResultBlock where
  tool_use_id : String
  content : String
deriving DecidableEq, Repr

/-- The `content` field of a conversation message: a plain string, a list of
assistant content blocks, or a list of tool results. -/
inductive MsgContent
  | str (s : String)
  | blocks (bs : List ContentBlock)
  | results (rs : List ToolResultBlock)
deriving DecidableEq, Repr

/-- A conversation message. -/
structure Message where
  role : String
  content : MsgContent
deriving DecidableEq, Repr

/-- A tool invocation as extracted from a tool_use block; this is exactly the
data handed to the tool executor (`ToolRequest(tool=name, parameters=input)`),
paired with the block's id. -/
structure ToolInvocation where
  id : String
  tool : String
  params : Params
deriving DecidableEq, Repr

/-- The tool_use blocks of a turn, in emission order. -/
def toolInvocations : List ContentBlock → List ToolInvocation
  | [] => []
  | .text _ :: rest => toolInvocations rest
  | .tool_use id name input :: rest => ⟨id, name, input⟩ :: toolInvocations rest

/-- Whether a turn's content contains at least one tool_use block. -/
def hasToolUse (bs : List ContentBlock) : Bool :=
  bs.any fun b => match b with
    | .tool_use _ _ _ => true
    | .text _ => false

/-- Concatenation, in emission order, of the text blocks of a turn (models the
`response_text += block.text` accumulation). -/
def textOf (bs : List ContentBlock) : String :=
  bs.foldl (fun acc b => match b with
    | .text s => acc ++ s
    | .tool_use _ _ _ => acc) ""

/-- The type of the tool executor as seen from the loop: tool name and
parameters to the serialized result, or an exception. -/
abbrev ExecFn := String → Params → Except String String

/-- The per-round block processing of `call_claude_with_tools`: walk the
turn's blocks in order, execute every tool_use block, and accumulate
(1) the assistant content to re-append, (2) the tool_result entries, and
(3) the trace of executor calls.  An exception aborts the walk, discarding
the partial accumulations (as in Python, where the local lists are lost). -/
def runBlocks (exec : ExecFn) :
    List ContentBlock → Except String (List ContentBlock × List ToolResultBlock × List ToolInvocation)
  | [] => .ok ([], [], [])
  | .text s :: rest =>
    match runBlocks exec rest with
    | .error e => .error e
    | .ok (ac, tr, cs) => .ok (.text s :: ac, tr, cs)
  | .tool_use id name input :: rest =>
    match exec name input with
    | .error e => .error e
    | .ok r =>
      match runBlocks exec rest with
      | .error e => .error e
      | .ok (ac, tr, cs) =>
        .ok (.tool_use id name input :: ac, ⟨id, r⟩ :: tr, ⟨id, name, input⟩ :: cs)

/-- Exception-free executor result type. -/
abbrev PureExecFn := String → Params → String

/-- `runBlocks` for an executor that never throws, as a pure function. -/
def pureBlocks (e : PureExecFn) :
    List ContentBlock → List ContentBlock × List ToolResultBlock × List ToolInvocation
  | [] => ([], [], [])
  | .text s :: rest =>
    let (ac, tr, cs) := pureBlocks e rest
    (.text s :: ac, tr, cs)
  | .tool_use id name input :: rest =>
    let (ac, tr, cs) := pureBlocks e rest
    (.tool_use id name input :: ac, ⟨id, e name input⟩ :: tr, ⟨id, name, input⟩ :: cs)

/-- The fixed apology returned when the loop hits `max_iterations`. -/
def apology : String :=
  "I apologize, but I encountered an issue processing your request. Please try again."

/-- The loop's return value (`{response, messages, tool_used}`). -/
structure LoopOutput where
  response : String
  messages : List Message
  tool_used : Bool
deriving DecidableEq, Repr

/-- Instrumented outcome of a run of the loop.  `result` is the returned
dictionary, or `.error` when an exception escapes; `messages` is the state of
the (in-place mutated) messages list after the run, whether or not an
exception escaped; `calls`, `toolRounds`, `modelCalls` are ghost
instrumentation recording the executor invocations in order, the number of
completed tool rounds, and the number of model calls issued. -/
structure RunOut where
  result : Except String LoopOutput
  messages : List Message
  calls : List ToolInvocation
  toolRounds : Nat
  modelCalls : Nat
deriving DecidableEq, Repr

/-- A model behavior: the turn produced at each round index (`.error` models
the Anthropic API call itself raising). -/
abbrev Behavior := Nat → Except String ModelTurn

/-- One execution of the `for iteration in range(max_iterations)` loop body,
recursing on the remaining iteration budget.  Mirrors
`claude_chat_handler.call_claude_with_tools` lines 232–312:
* budget exhausted: return the fixed apology with the current messages;
* model turn with `stop_reason != "tool_use"`: concatenate the text blocks,
  append one assistant message, return;
* otherwise: execute every tool_use block in emission order, append the
  assistant turn and then one user message carrying the tool results, set
  `tool_used := true`, and continue with the next round. -/
def loopFrom (exec : ExecFn) : Behavior → Bool → List Message → Nat → RunOut
  | _, toolUsed, msgs, 0 => ⟨.ok ⟨apology, msgs, toolUsed⟩, msgs, [], 0, 0⟩
  | beh, toolUsed, msgs, fuel+1 =>
    match beh 0 with
    | .error e => ⟨.error e, msgs, [], 0, 1⟩
    | .ok turn =>
      if turn.stop_tool_use = false then
        let t := textOf turn.content
        let msgs' := msgs ++ [⟨"assistant", .str t⟩]
        ⟨.ok ⟨t, msgs', toolUsed⟩, msgs', [], 0, 1⟩
      else
        match runBlocks exec turn.content with
        | .error e => ⟨.error e, msgs, [], 0, 1⟩
        | .ok (ac, tr, cs) =>
          let msgs' := msgs ++ [⟨"assistant", .blocks ac⟩, ⟨"user", .results tr⟩]
          let o := loopFrom exec (fun j => beh (j+1)) true msgs' fuel
          ⟨o.result, o.messages, cs ++ o.calls, o.toolRounds + 1, o.modelCalls + 1⟩

/-- `call_claude_with_tools`: ten-round budget, `tool_used` initially false. -/
def call_claude_with_tools (beh : Behavior) (exec : ExecFn) (messages : List Message) : RunOut :=
  loopFrom exec beh false messages 10

/-- Wrap an exception-free model behavior. -/
def okBeh (b : Nat → ModelTurn) : Behavior := fun i => .ok (b i)

/-- Wrap an exception-free executor. -/
def okExec (e : PureExecFn) : ExecFn := fun n p => .ok (e n p)

theorem okBeh_def (b : Nat → ModelTurn) : okBeh b = fun i => Except.ok (b i) := rfl

/-- Honesty of the Anthropic API: `stop_reason == "tool_use"` exactly when the
turn's content contains a tool_use block. -/
def Honest (b : Nat → ModelTurn) : Prop :=
  ∀ i, (b i).stop_tool_use = hasToolUse (b i).content

/-! ### Structural lemmas about the loop -/

theorem pureBlocks_fst (e : PureExecFn) (bs : List ContentBlock) : (pureBlocks e bs).1 = bs := by
  induction bs with
  | nil => rfl
  | cons hd tl ih =>
    cases hd <;> simp [pureBlocks, ih]

theorem pureBlocks_results (e : PureExecFn) (bs : List ContentBlock) :
    (pureBlocks e bs).2.1 = (toolInvocations bs).map (fun c => ⟨c.id, e c.tool c.params⟩) := by
  induction bs with
  | nil => rfl
  | cons hd tl ih =>
    cases hd <;> simp [pureBlocks, toolInvocations, ih]

theorem pureBlocks_calls (e : PureExecFn) (bs : List ContentBlock) :
    (pureBlocks e bs).2.2 = toolInvocations bs := by
  induction bs with
  | nil => rfl
  | cons hd tl ih =>
    cases hd <;> simp [pureBlocks, toolInvocations, ih]

theorem runBlocks_okExec (e : PureExecFn) (bs : List ContentBlock) :
    runBlocks (okExec e) bs = .ok (pureBlocks e bs) := by
  induction bs with
  | nil => rfl
  | cons hd tl ih =>
    cases hd <;> simp [runBlocks, pureBlocks, okExec, ih]

/-- The two messages appended by one tool round of the loop for turn `t`. -/
def toolRoundMsgs (e : PureExecFn) (t : ModelTurn) : List Message :=
  [⟨"assistant", .blocks (pureBlocks e t.content).1⟩,
   ⟨"user", .results (pureBlocks e t.content).2.1⟩]

/-- The messages appended by the first `k` (tool) rounds of behavior `b`. -/
def roundsMsgs (b : Nat → ModelTurn) (e : PureExecFn) (k : Nat) : List Message :=
  (List.range k).flatMap (fun j => toolRoundMsgs e (b j))

/-- The executor calls issued by the first `k` (tool) rounds of behavior `b`. -/
def callsUpTo (b : Nat → ModelTurn) (e : PureExecFn) (k : Nat) : List ToolInvocation :=
  (List.range k).flatMap (fun j => toolInvocations (b j).content)

theorem roundsMsgs_zero (b : Nat → ModelTurn) (e : PureExecFn) : roundsMsgs b e 0 = [] := rfl

theorem flatMap_map_succ {α : Type} (f : Nat → List α) (l : List Nat) :
    (l.map Nat.succ).flatMap f = l.flatMap (fun j => f (j+1)) := by
  induction l with
  | nil => rfl
  | cons hd tl ih => simp [ih]

theorem roundsMsgs_succ_shift (b : Nat → ModelTurn) (e : PureExecFn) (k : Nat) :
    roundsMsgs b e (k+1) = toolRoundMsgs e (b 0) ++ roundsMsgs (fun j => b (j+1)) e k := by
  simp [roundsMsgs, List.range_succ_eq_map, List.flatMap_cons, flatMap_map_succ]

theorem callsUpTo_succ_shift (b : Nat → ModelTurn) (e : PureExecFn) (k : Nat) :
    callsUpTo b e (k+1) = toolInvocations (b 0).content ++ callsUpTo (fun j => b (j+1)) e k := by
  simp [callsUpTo, List.range_succ_eq_map, List.flatMap_cons, flatMap_map_succ]

/-- Master lemma, terminating case: if the first `i` turns request tools
(`stop_tool_use` true) and turn `i` does not, with budget left, the loop
returns turn `i`'s concatenated text, appends per tool round the assistant
turn and one tool-results user message and finally one assistant message with
the answer, reports `tool_used` iff a tool round ran, and issues the executor
calls of rounds `0..i-1` in order using `i+1` model calls. -/
theorem loopFrom_done (e : PureExecFn) :
    ∀ (i : Nat) (b : Nat → ModelTurn) (used : Bool) (msgs : List Message) (fuel : Nat),
    (∀ j, j < i → (b j).stop_tool_use = true) → (b i).stop_tool_use = false → i < fuel →
    loopFrom (okExec e) (okBeh b) used msgs fuel =
      ⟨.ok ⟨textOf (b i).content,
            msgs ++ roundsMsgs b e i ++ [⟨"assistant", .str (textOf (b i).content)⟩],
            used || decide (0 < i)⟩,
       msgs ++ roundsMsgs b e i ++ [⟨"assistant", .str (textOf (b i).content)⟩],
       callsUpTo b e i, i, i + 1⟩ := by
  intro i
  induction i with
  | zero =>
    intro b used msgs fuel hpre hstop hfuel
    match fuel, hfuel with
    | fuel+1, _ =>
      simp [loopFrom, okBeh, hstop, roundsMsgs, callsUpTo]
  | succ i ih =>
    intro b used msgs fuel hpre hstop hfuel
    match fuel, hfuel with
    | fuel+1, hfuel =>
      have h0 : (b 0).stop_tool_use = true := hpre 0 (Nat.succ_pos i)
      have hrec := ih (fun j => b (j+1)) true
        (msgs ++ toolRoundMsgs e (b 0)) fuel
        (fun j hj => hpre (j+1) (Nat.succ_lt_succ hj)) hstop (Nat.lt_of_succ_lt_succ hfuel)
      simp only [okBeh_def, toolRoundMsgs] at hrec
      simp only [loopFrom, okBeh_def, h0, Bool.true_eq_false, if_false, runBlocks_okExec]
      rw [hrec]
      simp [toolRoundMsgs, roundsMsgs_succ_shift, callsUpTo_succ_shift, pureBlocks_calls,
        List.append_assoc]

/-- Master lemma, exhaustion case: if every turn within the budget requests
tools, the loop runs exactly `fuel` tool rounds and returns the apology. -/
theorem loopFrom_exhaust (e : PureExecFn) :
    ∀ (fuel : Nat) (b : Nat → ModelTurn) (used : Bool) (msgs : List Message),
    (∀ j, j < fuel → (b j).stop_tool_use = true) →
    loopFrom (okExec e) (okBeh b) used msgs fuel =
      ⟨.ok ⟨apology, msgs ++ roundsMsgs b e fuel, used || decide (0 < fuel)⟩,
       msgs ++ roundsMsgs b e fuel, callsUpTo b e fuel, fuel, fuel⟩ := by
  intro fuel
  induction fuel with
  | zero =>
    intro b used msgs hpre
    simp [loopFrom, roundsMsgs, callsUpTo]
  | succ fuel ih =>
    intro b used msgs hpre
    have h0 : (b 0).stop_tool_use = true := hpre 0 (Nat.succ_pos fuel)
    have hrec := ih (fun j => b (j+1)) true (msgs ++ toolRoundMsgs e (b 0))
      (fun j hj => hpre (j+1) (Nat.succ_lt_succ hj))
    simp only [okBeh_def, toolRoundMsgs] at hrec
    simp only [loopFrom, okBeh_def, h0, Bool.true_eq_false, if_false, runBlocks_okExec]
    rw [hrec]
    simp [toolRoundMsgs, roundsMsgs_succ_shift, callsUpTo_succ_shift, pureBlocks_calls,
      List.append_assoc]

/-- The loop never issues more model calls than its iteration budget. -/
theorem loopFrom_modelCalls_le (exec : ExecFn) :
    ∀ (fuel : Nat) (beh : Behavior) (used : Bool) (msgs : List Message),
    (loopFrom exec beh used msgs fuel).modelCalls ≤ fuel := by
  intro fuel
  induction fuel with
  | zero => intro beh used msgs; simp [loopFrom]
  | succ fuel ih =>
    intro beh used msgs
    simp only [loopFrom]
    match hb : beh 0 with
    | .error e => simp
    | .ok turn =>
      by_cases hs : turn.stop_tool_use = false
      · simp [hs]
      · simp only [hs, if_false]
        match hr : runBlocks exec turn.content with
        | .error e => simp
        | .ok (ac, tr, cs) =>
          simpa using Nat.succ_le_succ (ih _ true _)

/-! ## Pantry tools (`pantry_tools.py`) -/

/-- Python `", ".join(names)`. -/
def joinComma : List String → String
  | [] => ""
  | [x] => x
  | x :: rest => x ++ ", " ++ joinComma rest

/-- Python `round(x)` (banker's rounding, ties to even) on exact rationals. -/
def pyRound (q : ℚ) : ℤ :=
  let f := ⌊q⌋
  let r := q - (f : ℚ)
  if r < 1/2 then f
  else if 1/2 < r then f + 1
  else if Even f then f else f + 1

/-- Python `round(x, 1)`. -/
def pyRound1 (q : ℚ) : ℚ := (pyRound (q * 10) : ℚ) / 10

/-- Python `round(x, 2)`. -/
def pyRound2 (q : ℚ) : ℚ := (pyRound (q * 100) : ℚ) / 100

/-- The recipe match percentage of `search_recipes_by_ingredients`
(`pantry_tools.py` line 409):
`round((used / (used + missed) * 100) if used + missed > 0 else 0, 1)`. -/
def match_percentage (used missed : Nat) : ℚ :=
  pyRound1 (if 0 < used + missed then (used : ℚ) / ((used : ℚ) + (missed : ℚ)) * 100 else 0)

/-- A product record from Grocy `GET /objects/products`. -/
structure GrocyProduct where
  id : Nat
  name : String
  min_stock_amount : ℚ
deriving DecidableEq, Repr

/-- A stock entry from Grocy `GET /stock` (with its embedded product). -/
structure StockItem where
  productName : String
  productMinStock : ℚ
  amount_aggregated : ℚ
  amount_opened_aggregated : ℚ
  best_before_date : Option String
deriving DecidableEq, Repr

/-- A condensed item of `get_pantry_items`. -/
structure PantryItem where
  name : String
  amount : ℚ
  best_before : String
deriving DecidableEq, Repr

/-- Result of `get_pantry_items`: the success dictionary or the `except`
branch's error dictionary. -/
inductive PantryItemsResult
  | ok (total_products : Nat) (items : List PantryItem)
  | err (error : String)
deriving DecidableEq, Repr

/-- The item loop of `get_pantry_items` (lines 56–82): skip non-positive
amounts, apply the category filter, and collect condensed items.  `daysUntil`
models `(datetime.strptime(bb, "%Y-%m-%d") - datetime.now()).days`, with
`none` for a parse failure (which raises, aborting the whole call). -/
def condenseItems (daysUntil : String → Option Int) (category : String) :
    List StockItem → Except String (List PantryItem)
  | [] => .ok []
  | it :: rest =>
    if it.amount_aggregated ≤ 0 then condenseItems daysUntil category rest
    else
      let keep : Except String Bool :=
        if category = "all" then .ok true
        else if category = "expiring_soon" then
          match it.best_before_date with
          | none => .ok true
          | some bb =>
            if bb = "" then .ok true
            else match daysUntil bb with
              | none => .error ("time data " ++ bb ++ " does not match format")
              | some d => .ok (decide (d ≤ 7))
        else if category = "low_stock" then .ok (decide (it.amount_aggregated < it.productMinStock))
        else .ok (substrCI category it.productName)
      match keep with
      | .error e => .error e
      | .ok false => condenseItems daysUntil category rest
      | .ok true =>
        match condenseItems daysUntil category rest with
        | .error e => .error e
        | .ok tl =>
          .ok (⟨it.productName, it.amount_aggregated, it.best_before_date.getD "N/A"⟩ :: tl)

/-- `get_pantry_items` (lines 43–94).  `stockResp` is the `GET /stock`
response, `.error` when the request or JSON decoding raises. -/
def get_pantry_items (daysUntil : String → Option Int) (category : String)
    (stockResp : Except String (List StockItem)) : PantryItemsResult :=
  match stockResp with
  | .error e => .err ("Failed to fetch pantry items: " ++ e)
  | .ok stock =>
    match condenseItems daysUntil category stock with
    | .error e => .err ("Failed to fetch pantry items: " ++ e)
    | .ok items => .ok items.length items

/-- One match of `get_product_info`. -/
structure ProductInfoMatch where
  name : String
  amount : ℚ
  amount_opened : ℚ
  best_before : String
  min_stock_amount : ℚ
deriving DecidableEq, Repr

/-- Result of `get_product_info`. -/
inductive ProductInfoResult
  | found (ms : List ProductInfoMatch)
  | notFound (message : String)
  | err (error : String)
deriving DecidableEq, Repr

/-- `get_product_info` (lines 97–129): case-insensitive substring match over
the stock list. -/
def get_product_info (product_name : String)
    (stockResp : Except String (List StockItem)) : ProductInfoResult :=
  match stockResp with
  | .error e => .err ("Failed to fetch product info: " ++ e)
  | .ok stock =>
    let ms := (stock.filter (fun it => substrCI product_name it.productName)).map
      (fun it => (⟨it.productName, it.amount_aggregated, it.amount_opened_aggregated,
        it.best_before_date.getD "N/A", it.productMinStock⟩ : ProductInfoMatch))
    if ms.isEmpty then
      .notFound ("No products found matching \x27" ++ product_name ++ "\x27")
    else .found ms

/-- An `{id, name}` match of `find_product_id_by_name`. -/
structure ProductMatch where
  id : Nat
  name : String
deriving DecidableEq, Repr

/-- Result of `find_product_id_by_name`: the found / not-found dictionaries,
or the `except` branch's error dictionary. -/
inductive FindProductResult
  | found (ms : List ProductMatch)
  | notFound (message : String)
  | err (error : String)
deriving DecidableEq, Repr

/-- The case-insensitive substring scan of `find_product_id_by_name`
(lines 146–153). -/
def findMatches (product_name : String) (products : List GrocyProduct) : List ProductMatch :=
  (products.filter (fun p => substrCI product_name p.name)).map (fun p => ⟨p.id, p.name⟩)

/-- `find_product_id_by_name` (lines 132–161). -/
def find_product_id_by_name (product_name : String)
    (productsResp : Except String (List GrocyProduct)) : FindProductResult :=
  match productsResp with
  | .error e => .err ("Failed to search for product: " ++ e)
  | .ok products =>
    let ms := findMatches product_name products
    if ms.isEmpty then
      .notFound ("No product found matching \x27" ++ product_name ++ "\x27")
    else .found ms

/-- Ghost trace of the Grocy-mutating HTTP POSTs a tool issues. -/
inductive Mutation
  | consumePost (product_id : Nat) (amount : ℚ) (spoiled : Bool)
  | addPost (product_id : Nat) (amount : ℚ) (best_before_date : Option String) (price : Option ℚ)
  | shoppingPost (product_id : Nat) (amount : ℚ)
  | locationPost (name : String)
  | productPost (name : String) (location_id unit_id : Nat) (min_stock_amount : ℚ)
  | initialStockPost (product_id : Nat)
deriving DecidableEq, Repr

/-- Result of `consume_stock`. -/
inductive ConsumeResult
  | ok (message : String) (product_name : String) (amount : ℚ) (spoiled : Bool)
  | err (error : String)
deriving DecidableEq, Repr

/-- `consume_stock` (lines 164–214): resolve the free-text name, refuse on
zero or multiple matches, otherwise POST the consume transaction.
`consumePost` is the outcome of that POST (`.error` when it raises). -/
def consume_stock (product_name : String) (amount : ℚ) (spoiled : Bool)
    (productsResp : Except String (List GrocyProduct)) (consumePost : Except String Unit) :
    ConsumeResult × List Mutation :=
  match find_product_id_by_name product_name productsResp with
  | .found ms =>
    if ms.length > 1 then
      (.err ("Multiple products found: " ++ joinComma (ms.map (fun m => m.name)) ++
        ". Please be more specific."), [])
    else
      let m := ms.headD ⟨0, ""⟩
      match consumePost with
      | .ok _ =>
        (.ok ("Successfully consumed " ++ pyFloatStr amount ++ " of \x27" ++ m.name ++ "\x27")
          m.name amount spoiled,
         [.consumePost m.id amount spoiled])
      | .error e => (.err ("Failed to consume stock: " ++ e), [])
  | _ => (.err ("Product \x27" ++ product_name ++ "\x27 not found in Grocy"), [])

/-- The Grocy object tables `create_product` touches, and the server's
`created_object_id` counter. -/
structure GrocyObjects where
  locations : List (Nat × String)
  quantity_units : List (Nat × String)
  nextId : Nat
deriving DecidableEq, Repr

/-- Result of `create_product` (success dictionary; the model covers the
reachable-server path on which every `grocy_api` call succeeds, so the
error dictionaries of the Python function do not arise). -/
structure CreateProductOut where
  message : String
  product_id : Nat
  location : String
  unit : String
deriving DecidableEq, Repr

/-- `create_product` (lines 1154–1245): look up (case-insensitively) or
create the location, look up the quantity unit (default id 1), POST the new
product, then POST an initial zero stock entry. -/
def create_product (name location quantity_unit : String) (min_stock_amount : ℚ)
    (obj : GrocyObjects) : CreateProductOut × List Mutation × GrocyObjects :=
  let locFound := obj.locations.find? (fun l => lowerChars l.2 = lowerChars location)
  let locStep : Nat × List Mutation × GrocyObjects :=
    match locFound with
    | some l => (l.1, [], obj)
    | none =>
      (obj.nextId, [.locationPost location],
       ⟨obj.locations ++ [(obj.nextId, location)], obj.quantity_units, obj.nextId + 1⟩)
  let location_id := locStep.1
  let obj1 := locStep.2.2
  let unit_id : Nat :=
    match obj1.quantity_units.find? (fun u => lowerChars u.2 = lowerChars quantity_unit) with
    | some u => u.1
    | none => 1
  let product_id := obj1.nextId
  let obj2 : GrocyObjects := ⟨obj1.locations, obj1.quantity_units, obj1.nextId + 1⟩
  (⟨"Created product: " ++ name ++ " (added to stock at 0 quantity)", product_id,
    location, quantity_unit⟩,
   locStep.2.1 ++ [.productPost name location_id unit_id min_stock_amount,
     .initialStockPost product_id],
   obj2)

/-- Result of `add_stock`. -/
inductive AddStockResult
  | ok (message : String) (product_name : String) (amount : ℚ)
      (best_before_date : Option String) (price : Option ℚ)
  | err (error : String)
deriving DecidableEq, Repr

/-- The shared tail of `add_stock` once a (possibly just-created) match list
is available (lines 236–285). -/
def addStockWithMatches (amount : ℚ) (best_before_date : Option String) (price : Option ℚ)
    (addPost : Except String Unit) (ms : List ProductMatch) (muts0 : List Mutation) :
    AddStockResult × List Mutation :=
  if ms.length > 1 then
    (.err ("Multiple products found: " ++ joinComma (ms.map (fun m => m.name)) ++
      ". Please be more specific."), muts0)
  else
    let m := ms.headD ⟨0, ""⟩
    match addPost with
    | .ok _ =>
      (.ok ("Successfully added " ++ pyFloatStr amount ++ " of \x27" ++ m.name ++
        "\x27 to inventory") m.name amount best_before_date price,
       muts0 ++ [.addPost m.id amount best_before_date price])
    | .error e => (.err ("Failed to add stock: " ++ e), muts0)

/-- `add_stock` (lines 217–285): resolve the free-text name; when no product
matches, auto-create one via `create_product` and re-search (the re-search
sees the products list extended by the new product), then report ambiguity or
POST the purchase transaction for the unique match. -/
def add_stock (product_name : String) (amount : ℚ) (best_before_date : Option String)
    (price : Option ℚ) (productsResp : Except String (List GrocyProduct))
    (obj : GrocyObjects) (addPost : Except String Unit) : AddStockResult × List Mutation :=
  match find_product_id_by_name product_name productsResp with
  | .found ms => addStockWithMatches amount best_before_date price addPost ms []
  | _ =>
    let created := create_product product_name "Pantry" "piece" 0 obj
    let productsResp2 := productsResp.map
      (fun ps => ps ++ [⟨created.1.product_id, product_name, 0⟩])
    match find_product_id_by_name product_name productsResp2 with
    | .found ms => addStockWithMatches amount best_before_date price addPost ms created.2.1
    | _ =>
      (.err ("Product \x27" ++ product_name ++ "\x27 was created but could not be found"),
       created.2.1)

/-- Result of `add_to_shopping_list`. -/
inductive ShoppingAddResult
  | ok (message : String) (product_name : String) (amount : ℚ)
  | err (error : String)
deriving DecidableEq, Repr

/-- `add_to_shopping_list` (lines 288–335). -/
def add_to_shopping_list (product_name : String) (amount : ℚ)
    (productsResp : Except String (List GrocyProduct)) (shoppingPost : Except String Unit) :
    ShoppingAddResult × List Mutation :=
  match find_product_id_by_name product_name productsResp with
  | .found ms =>
    if ms.length > 1 then
      (.err ("Multiple products found: " ++ joinComma (ms.map (fun m => m.name)) ++
        ". Please be more specific."), [])
    else
      let m := ms.headD ⟨0, ""⟩
      match shoppingPost with
      | .ok _ =>
        (.ok ("Added " ++ pyFloatStr amount ++ " of \x27" ++ m.name ++ "\x27 to shopping list")
          m.name amount,
         [.shoppingPost m.id amount])
      | .error e => (.err ("Failed to add to shopping list: " ++ e), [])
  | _ => (.err ("Product \x27" ++ product_name ++ "\x27 not found in Grocy"), [])

/-- A shopping list entry from Grocy `GET /objects/shopping_list`. -/
structure ShoppingEntry where
  product_id : Nat
  amount : ℚ
  note : String
deriving DecidableEq, Repr

/-- Result of `get_shopping_list`. -/
inductive ShoppingListResult
  | ok (total_items : Nat) (items : List ShoppingEntry)
  | err (error : String)
deriving DecidableEq, Repr

/-- `get_shopping_list` (lines 338–371); the per-item dictionary keeps exactly
the `product_id`, `amount` and `note` fields. -/
def get_shopping_list (shoppingResp : Except String (List ShoppingEntry)) : ShoppingListResult :=
  match shoppingResp with
  | .error e => .err ("Failed to get shopping list: " ++ e)
  | .ok items => .ok items.length items

/-- A recipe hit from Spoonacular `findByIngredients`: ingredient lists are
kept as their `name` strings (only lengths and names are consumed). -/
structure RecipeHit where
  id : Nat
  title : String
  image : String
  usedIngredients : List String
  missedIngredients : List String
deriving DecidableEq, Repr

/-- A simplified recipe entry of `search_recipes_by_ingredients`. -/
structure SimplifiedRecipe where
  id : Nat
  title : String
  image : String
  usedIngredients : Nat
  matchPercentage : ℚ
  missedIngredients : List String
deriving DecidableEq, Repr

/-- Result of `search_recipes_by_ingredients`: success, the bare
`{"error": ...}` returned when no API key is configured, or the `except`
branch's error dictionary. -/
inductive RecipeSearchResult
  | ok (total_recipes : Nat) (recipes : List SimplifiedRecipe)
  | keyMissing (error : String)
  | err (error : String)
deriving DecidableEq, Repr

/-- Descending-by-match-percentage comparison used for the result sort. -/
def recipeGE (a b : SimplifiedRecipe) : Prop := b.matchPercentage ≤ a.matchPercentage

instance : DecidableRel recipeGE :=
  fun a b => inferInstanceAs (Decidable (b.matchPercentage ≤ a.matchPercentage))

/-- `search_recipes_by_ingredients` (lines 378–439): simplify each hit,
compute its match percentage, and stable-sort descending by that percentage
(Python's `list.sort` is stable; `List.insertionSort` is a stable sort).
`ingredients` and `number` are only forwarded to the remote API, whose
response is `searchResp`. -/
def search_recipes_by_ingredients (spoonacularKeySet : Bool)
    (searchResp : Except String (List RecipeHit)) (ingredients : String) (number : ℚ) :
    RecipeSearchResult :=
  if spoonacularKeySet = false then .keyMissing "Spoonacular API key not configured"
  else
    match searchResp with
    | .error e => .err ("Failed to search recipes: " ++ e)
    | .ok recipes =>
      let simplified := recipes.map (fun r =>
        (⟨r.id, r.title, r.image, r.usedIngredients.length,
          match_percentage r.usedIngredients.length r.missedIngredients.length,
          r.missedIngredients⟩ : SimplifiedRecipe))
      let sorted := simplified.insertionSort recipeGE
      .ok sorted.length sorted

/-- One step of an analyzed instruction block. -/
structure RecipeStep where
  number : Nat
  step : String
deriving DecidableEq, Repr

/-- The recipe information payload from Spoonacular
`/recipes/id/information`; `instructions = ""` models an absent or empty
fallback field, `extendedIngredients` keeps the `original` strings. -/
structure RecipeInfo where
  title : String
  image : String
  servings : Nat
  readyInMinutes : Nat
  extendedIngredients : List String
  analyzedInstructions : List (List RecipeStep)
  instructions : String
  sourceUrl : String
deriving DecidableEq, Repr

/-- Result of `get_recipe_details`. -/
inductive RecipeDetailsResult
  | ok (title image : String) (servings ready_in_minutes : Nat)
      (ingredients instructions : List String) (source_url : String)
  | keyMissing (error : String)
  | err (error : String)
deriving DecidableEq, Repr

/-- `get_recipe_details` (lines 442–492). -/
def get_recipe_details (spoonacularKeySet : Bool) (infoResp : Except String RecipeInfo)
    (recipe_id : ℚ) : RecipeDetailsResult :=
  if spoonacularKeySet = false then .keyMissing "Spoonacular API key not configured"
  else
    match infoResp with
    | .error e => .err ("Failed to get recipe details: " ++ e)
    | .ok recipe =>
      let instructions : List String :=
        if recipe.analyzedInstructions.isEmpty = false then
          (recipe.analyzedInstructions.headD []).map
            (fun s => toString s.number ++ ". " ++ s.step)
        else if recipe.instructions = "" then []
        else [recipe.instructions]
      .ok recipe.title recipe.image recipe.servings recipe.readyInMinutes
        recipe.extendedIngredients instructions recipe.sourceUrl

/-! ## Filesystem recipes (`save_recipe`, `get_recipe`, `list_recipes`) -/

/-- Python `str.replace` restricted to a one-character pattern and
replacement, which is exactly per-character substitution. -/
def replaceChar (c d : Char) (l : List Char) : List Char :=
  l.map fun x => if x = c then d else x

/-- Append `".txt"` unless already present (`if not safe_name.endswith(".txt")`). -/
def withTxtExt (l : List Char) : List Char :=
  if ".txt".data.isSuffixOf l then l else l ++ ".txt".data

/-- `recipe_name.lower().replace(" ", "_")` as characters. -/
def lowerUnderscore (recipe_name : String) : List Char :=
  replaceChar ' ' '_' (lowerChars recipe_name)

/-- The filename `save_recipe` derives (line 553):
`recipe_name.lower().replace(" ", "_").replace("/", "_")` plus `".txt"`. -/
def save_filename (recipe_name : String) : List Char :=
  withTxtExt (replaceChar '/' '_' (lowerUnderscore recipe_name))

/-- The filename `get_recipe` derives (line 765):
`recipe_name.lower().replace(" ", "_")` plus `".txt"` — note the missing
`"/"` replacement. -/
def get_filename (recipe_name : String) : List Char :=
  withTxtExt (lowerUnderscore recipe_name)

/-- Python `str.title()`: uppercase a letter that does not follow a letter,
lowercase one that does. -/
def pyTitleAux : Bool → List Char → List Char
  | _, [] => []
  | prev, c :: rest =>
    if c.isAlpha then (if prev then c.toLower else c.toUpper) :: pyTitleAux true rest
    else c :: pyTitleAux false rest

/-- Python `str.title()` on a string. -/
def pyTitle (s : String) : String := String.mk (pyTitleAux false s.data)

/-- A file of the recipe directory: path (relative to `RECIPE_DIR`), content
and modification time. -/
structure FsEntry where
  path : List Char
  content : String
  mtime : String
deriving DecidableEq, Repr

/-- The recipe directory's state. -/
abbrev Fs := List FsEntry

/-- `RECIPE_DIR` default. -/
def RECIPE_DIR : String := "/app/recipes"

/-- `Path.write_text`: (over)write one file. -/
def fsWrite (fs : Fs) (p : List Char) (c : String) (t : String) : Fs :=
  ⟨p, c, t⟩ :: fs.filter (fun f => f.path ≠ p)

/-- `Path.exists` / `read_text`: look a file up. -/
def fsRead (fs : Fs) (p : List Char) : Option String :=
  (fs.find? (fun f => f.path = p)).map (fun f => f.content)

/-- Result of `save_recipe`.  The `err` branch (a filesystem write failure)
is unreachable in this model. -/
inductive SaveRecipeResult
  | ok (message file_path recipe_name : String)
  | err (error : String)
deriving DecidableEq, Repr

/-- The full file content `save_recipe` writes (lines 560–566). -/
def saveRecipeContent (recipe_name recipe_content timestamp : String) : String :=
  "# " ++ pyTitle recipe_name ++ "\n# Created: " ++ timestamp ++
    "\n# Source: PantryBot\n\n" ++ recipe_content ++ "\n"

/-- `save_recipe` (lines 551–580); `timestamp` models
`datetime.now().strftime(...)` and doubles as the written file's mtime. -/
def save_recipe (recipe_name recipe_content : String) (timestamp : String) (fs : Fs) :
    SaveRecipeResult × Fs :=
  let safe_name := save_filename recipe_name
  let full_content := saveRecipeContent recipe_name recipe_content timestamp
  (.ok "Recipe saved successfully" (RECIPE_DIR ++ "/" ++ String.mk safe_name) recipe_name,
   fsWrite fs safe_name full_content timestamp)

/-- The display name `get_recipe`/`list_recipes` derive from a `*.txt` file
path: `f.stem.replace("_", " ").title()`. -/
def displayName (p : List Char) : String :=
  String.mk (pyTitleAux false (replaceChar '_' ' ' (p.take (p.length - 4))))

/-- The `available_recipes` listing of `get_recipe` (lines 780–781). -/
def availableRecipes (fs : Fs) : List String :=
  (fs.filter (fun f => ".txt".data.isSuffixOf f.path)).map (fun f => displayName f.path)

/-- Result of `get_recipe`.  The outer `except` branch (a read failure) is
unreachable in this model. -/
inductive GetRecipeResult
  | ok (recipe_name content : String)
  | notFound (error : String) (available_recipes : List String)
  | err (error : String)
deriving DecidableEq, Repr

/-- `get_recipe` (lines 763–792). -/
def get_recipe (recipe_name : String) (fs : Fs) : GetRecipeResult :=
  let safe_name := get_filename recipe_name
  match fsRead fs safe_name with
  | some content => .ok recipe_name content
  | none =>
    .notFound ("Recipe \x27" ++ recipe_name ++ "\x27 not found") (availableRecipes fs)

/-- One entry of `list_recipes`. -/
structure RecipeFileInfo where
  name : String
  filename : String
  size_kb : ℚ
  modified : String
deriving DecidableEq, Repr

/-- Lexicographic comparison of paths, for `sorted(RECIPE_DIR.glob("*.txt"))`. -/
def charListLe : List Char → List Char → Bool
  | [], _ => true
  | _ :: _, [] => false
  | a :: as, b :: bs => if a = b then charListLe as bs else decide (a < b)

/-- Path order as a decidable relation. -/
def fsEntryLe (a b : FsEntry) : Prop := charListLe a.path b.path = true

instance : DecidableRel fsEntryLe :=
  fun a b => inferInstanceAs (Decidable (charListLe a.path b.path = true))

/-- Result of `list_recipes`.  The `except` branch is unreachable in this
model. -/
inductive ListRecipesResult
  | ok (total_recipes : Nat) (recipes : List RecipeFileInfo)
  | err (error : String)
deriving DecidableEq, Repr

/-- `list_recipes` (lines 795–819): the `*.txt` files sorted by filename;
`size_kb` is `round(st_size / 1024, 2)` with `st_size` the UTF-8 byte size,
`modified` is the stored mtime. -/
def list_recipes (fs : Fs) : ListRecipesResult :=
  let files := (fs.filter (fun f => ".txt".data.isSuffixOf f.path)).insertionSort fsEntryLe
  let recipes := files.map (fun f =>
    (⟨displayName f.path, String.mk f.path,
      pyRound2 ((f.content.utf8ByteSize : ℚ) / 1024), f.mtime⟩ : RecipeFileInfo))
  .ok recipes.length recipes

/-! ## The HTTP bridge (`mcp_http_bridge.py`) -/

/-- A tool request (`ToolRequest(tool=..., parameters=...)`). -/
structure ToolRequest where
  tool : String
  parameters : Params
deriving DecidableEq, Repr

/-- `params.get(key)`: the value stored under a key, if any. -/
def getParam (p : Params) (k : String) : Option PVal :=
  (p.find? (fun kv => kv.1 = k)).map Prod.snd

/-- `params.get(key, default)` for string-typed parameters (the model assumes
well-typed payloads, as the Python code does). -/
def getStr (p : Params) (k : String) (d : String) : String :=
  match getParam p k with
  | some (.s v) => v
  | _ => d

/-- `params.get(key, default)` for numeric parameters. -/
def getNum (p : Params) (k : String) (d : ℚ) : ℚ :=
  match getParam p k with
  | some (.n v) => v
  | _ => d

/-- `params.get(key, default)` for boolean parameters. -/
def getBool (p : Params) (k : String) (d : Bool) : Bool :=
  match getParam p k with
  | some (.b v) => v
  | _ => d

/-- `params.get(key)` for an optional string parameter (`None` default). -/
def getOptStr (p : Params) (k : String) : Option String :=
  match getParam p k with
  | some (.s v) => some v
  | _ => none

/-- `params.get(key)` for an optional numeric parameter (`None` default). -/
def getOptNum (p : Params) (k : String) : Option ℚ :=
  match getParam p k with
  | some (.n v) => some v
  | _ => none

/-- The external world as the tools see it: remote responses, the recipe
directory, the clock, and the outcomes of the mutating POSTs. -/
structure Env where
  daysUntil : String → Option Int
  stockResp : Except String (List StockItem)
  productsResp : Except String (List GrocyProduct)
  shoppingResp : Except String (List ShoppingEntry)
  spoonacularKeySet : Bool
  recipeSearchResp : Except String (List RecipeHit)
  recipeInfoResp : Except String RecipeInfo
  fs : Fs
  timestamp : String
  grocyObjects : GrocyObjects
  consumePost : Except String Unit
  addPost : Except String Unit
  shoppingPost : Except String Unit

/-- The union of the tool result dictionaries `execute_tool` can return. -/
inductive ToolOutput
  | pantry (r : PantryItemsResult)
  | saveR (r : SaveRecipeResult)
  | getR (r : GetRecipeResult)
  | listR (r : ListRecipesResult)
  | prodInfo (r : ProductInfoResult)
  | searchRec (r : RecipeSearchResult)
  | recDetails (r : RecipeDetailsResult)
  | consume (r : ConsumeResult)
  | addStk (r : AddStockResult)
  | shopAdd (r : ShoppingAddResult)
  | shopList (r : ShoppingListResult)
deriving DecidableEq, Repr

/-- The tool names `execute_tool` routes, in dispatch order. -/
def knownToolNames : List String :=
  ["get_pantry_items", "save_recipe", "get_recipe", "list_recipes", "get_product_info",
   "search_recipes_by_ingredients", "get_recipe_details", "consume_stock", "add_stock",
   "add_to_shopping_list", "get_shopping_list"]

/-- `execute_tool` (`mcp_http_bridge.py` lines 97–149): route on the tool
name, reading each parameter with `params.get(key, default)`; an unknown name
raises `HTTPException(400, "Unknown tool: ...")`, modelled as `.error`. -/
def execute_tool (env : Env) (request : ToolRequest) : Except String ToolOutput :=
  let params := request.parameters
  if request.tool = "get_pantry_items" then
    .ok (.pantry (get_pantry_items env.daysUntil (getStr params "category" "all") env.stockResp))
  else if request.tool = "save_recipe" then
    .ok (.saveR (save_recipe (getStr params "recipe_name" "") (getStr params "recipe_content" "")
      env.timestamp env.fs).1)
  else if request.tool = "get_recipe" then
    .ok (.getR (get_recipe (getStr params "recipe_name" "") env.fs))
  else if request.tool = "list_recipes" then
    .ok (.listR (list_recipes env.fs))
  else if request.tool = "get_product_info" then
    .ok (.prodInfo (get_product_info (getStr params "product_name" "") env.stockResp))
  else if request.tool = "search_recipes_by_ingredients" then
    .ok (.searchRec (search_recipes_by_ingredients env.spoonacularKeySet env.recipeSearchResp
      (getStr params "ingredients" "") (getNum params "number" 5)))
  else if request.tool = "get_recipe_details" then
    .ok (.recDetails (get_recipe_details env.spoonacularKeySet env.recipeInfoResp
      (getNum params "recipe_id" 0)))
  else if request.tool = "consume_stock" then
    .ok (.consume (consume_stock (getStr params "product_name" "") (getNum params "amount" 0)
      (getBool params "spoiled" false) env.productsResp env.consumePost).1)
  else if request.tool = "add_stock" then
    .ok (.addStk (add_stock (getStr params "product_name" "") (getNum params "amount" 0)
      (getOptStr params "best_before_date") (getOptNum params "price")
      env.productsResp env.grocyObjects env.addPost).1)
  else if request.tool = "add_to_shopping_list" then
    .ok (.shopAdd (add_to_shopping_list (getStr params "product_name" "")
      (getNum params "amount" 1) env.productsResp env.shoppingPost).1)
  else if request.tool = "get_shopping_list" then
    .ok (.shopList (get_shopping_list env.shoppingResp))
  else
    .error ("Unknown tool: " ++ request.tool)

/-- Stand-in for `json.dumps` of a tool result; no claim inspects the
serialized text. -/
def dumpToolOutput : ToolOutput → String := reprStr

/-- The executor function the chat endpoint passes to the loop
(`execute_tool_func=execute_tool`, composed with the loop's `json.dumps`). -/
def envExec (env : Env) : ExecFn :=
  fun tool params => (execute_tool env ⟨tool, params⟩).map dumpToolOutput

/-- The in-memory `conversations` dictionary, keyed by conversation id. -/
abbrev Store := List (String × List Message)

/-- Dictionary lookup with `[]` for a missing key (the endpoint initializes
missing entries to the empty list). -/
def storeGet (s : Store) (k : String) : List Message :=
  ((s.find? (fun kv => kv.1 = k)).map (fun kv => kv.2)).getD []

/-- Dictionary update. -/
def storeSet (s : Store) (k : String) (v : List Message) : Store :=
  (k, v) :: s.filter (fun kv => kv.1 ≠ k)

/-- The `/chat` endpoint's JSON response. -/
inductive ChatResult
  | ok (response : String) (tool_used : Bool) (conversation_id : String)
  | err (error : String) (conversation_id : String)
deriving DecidableEq, Repr

/-- The conversation id the endpoint uses: `conversation_id or "default"`
(Python `or` treats the empty string as missing). -/
def convIdOf (conversation_id : Option String) : String :=
  match conversation_id with
  | none => "default"
  | some s => if s = "" then "default" else s

/-- The `/chat` endpoint (`mcp_http_bridge.py` lines 196–259): append the
user message to the stored conversation, run the loop on that same
(in-place mutated) list, and on success store the loop's messages plus one
more copy of the final response; an exception is caught and returned as an
error object. -/
def chat (beh : Behavior) (exec : ExecFn) (store : Store) (message : String)
    (conversation_id : Option String) : ChatResult × Store :=
  let convId : String := convIdOf conversation_id
  let conv1 := storeGet store convId ++ [⟨"user", .str message⟩]
  let out := call_claude_with_tools beh exec conv1
  match out.result with
  | .ok r =>
    (.ok r.response r.tool_used convId,
     storeSet store convId (r.messages ++ [⟨"assistant", .str r.response⟩]))
  | .error e =>
    (.err ("Chat failed: " ++ e) convId, storeSet store convId out.messages)

/-! ## Error-path structure of the loop (for the `/chat` failure claims) -/

/-- Round `j` of a run is a completed tool round: the model call succeeded,
requested tools, and every tool of the round executed without raising. -/
def cleanToolRound (beh : Behavior) (exec : ExecFn) (j : Nat) : Prop :=
  ∃ t, beh j = .ok t ∧ t.stop_tool_use = true ∧ (runBlocks exec t.content).isOk = true

/-- The pair of messages round `j` appends when it completes as a tool round
(`[]` when the round raised and appended nothing). -/
def roundMsgsE (beh : Behavior) (exec : ExecFn) (j : Nat) : List Message :=
  match beh j with
  | .error _ => []
  | .ok t =>
    match runBlocks exec t.content with
    | .error _ => []
    | .ok (ac, tr, _) => [⟨"assistant", .blocks ac⟩, ⟨"user", .results tr⟩]

/-- The messages appended by the first `k` rounds. -/
def roundsMsgsE (beh : Behavior) (exec : ExecFn) (k : Nat) : List Message :=
  (List.range k).flatMap (roundMsgsE beh exec)

theorem roundsMsgsE_succ_shift (beh : Behavior) (exec : ExecFn) (k : Nat) :
    roundsMsgsE beh exec (k+1) =
      roundMsgsE beh exec 0 ++ roundsMsgsE (fun j => beh (j+1)) exec k := by
  have h : ∀ j, roundMsgsE beh exec (j+1) = roundMsgsE (fun j' => beh (j'+1)) exec j :=
    fun j => rfl
  simp [roundsMsgsE, List.range_succ_eq_map, List.flatMap_cons, flatMap_map_succ, h]

/-- If an exception escapes the loop, the messages list holds the initial
transcript followed by the two-message blocks of some number of *completed*
tool rounds — never a partial round. -/
theorem loopFrom_error_messages (exec : ExecFn) :
    ∀ (fuel : Nat) (beh : Behavior) (used : Bool) (msgs : List Message) (e0 : String),
    (loopFrom exec beh used msgs fuel).result = .error e0 →
    ∃ k, (∀ j, j < k → cleanToolRound beh exec j) ∧
      (loopFrom exec beh used msgs fuel).messages = msgs ++ roundsMsgsE beh exec k := by
  intro fuel
  induction fuel with
  | zero =>
    intro beh used msgs e0 hres
    simp [loopFrom] at hres
  | succ fuel ih =>
    intro beh used msgs e0 hres
    simp only [loopFrom] at hres ⊢
    match hb : beh 0 with
    | .error e =>
      refine ⟨0, fun j hj => absurd hj (Nat.not_lt_zero j), ?_⟩
      simp [hb, roundsMsgsE]
    | .ok turn =>
      simp only [hb] at hres ⊢
      by_cases hs : turn.stop_tool_use = false
      · simp [hs] at hres
      · have hs' : turn.stop_tool_use = true := by
          revert hs; cases turn.stop_tool_use <;> simp
        simp only [hs', Bool.true_eq_false, if_false] at hres ⊢
        match hr : runBlocks exec turn.content with
        | .error e =>
          simp only [hr] at hres ⊢
          refine ⟨0, fun j hj => absurd hj (Nat.not_lt_zero j), ?_⟩
          simp [roundsMsgsE]
        | .ok (ac, tr, cs) =>
          simp only [hr] at hres ⊢
          obtain ⟨k, hclean, hmsgs⟩ := ih (fun j => beh (j+1)) true
            (msgs ++ [⟨"assistant", .blocks ac⟩, ⟨"user", .results tr⟩]) e0 hres
          refine ⟨k + 1, ?_, ?_⟩
          · intro j hj
            match j with
            | 0 =>
              refine ⟨turn, hb, ?_, ?_⟩
              · revert hs; cases turn.stop_tool_use <;> simp
              · rw [hr]; rfl
            | j'+1 => exact hclean j' (Nat.lt_of_succ_lt_succ hj)
          · rw [hmsgs, roundsMsgsE_succ_shift]
            simp [roundMsgsE, hb, hr]

/-! ## Claim C1 -/

/-- Sample executor used by witnesses. -/
def sampleExec : PureExecFn := fun _ _ => "r"

/-- A no-tool model turn used by witnesses. -/
def sampleDoneTurn : ModelTurn := ⟨false, [.text "ok"]⟩

/-- A one-tool model turn used by witnesses. -/
def sampleToolTurn : ModelTurn := ⟨true, [.tool_use "t1" "get_shopping_list" []]⟩

/-- Behavior answering with plain text immediately. -/
def behDone : Nat → ModelTurn := fun _ => sampleDoneTurn

/-- Behavior requesting one tool, then answering with plain text. -/
def behOneTool : Nat → ModelTurn := fun i => if i = 0 then sampleToolTurn else sampleDoneTurn

/-- Behavior requesting a tool on every round. -/
def behAllTools : Nat → ModelTurn := fun _ => sampleToolTurn

theorem behDone_honest : Honest behDone := fun _ => rfl

theorem behAllTools_honest : Honest behAllTools := fun _ => rfl

theorem behOneTool_honest : Honest behOneTool := fun i => by
  cases i <;> rfl

/-- C1: the loop performs at most ten model rounds; a model behavior whose
first turn without tool-use blocks arrives at round `i < 10` gets that turn's
text returned at model call `i + 1` (hence within ten rounds); a behavior
whose first ten turns all request at least one tool makes the loop exit after
exactly the tenth model call with the fixed apology response, the `tool_used`
flag reporting that tools fired in the earlier rounds. -/
theorem C1_round_budget (b : Nat → ModelTurn) (e : PureExecFn) (msgs : List Message)
    (hH : Honest b) :
    (∀ i, i < 10 → (∀ j, j < i → hasToolUse (b j).content = true) →
      hasToolUse (b i).content = false →
      (call_claude_with_tools (okBeh b) (okExec e) msgs).result =
        .ok ⟨textOf (b i).content,
          msgs ++ roundsMsgs b e i ++ [⟨"assistant", .str (textOf (b i).content)⟩],
          decide (0 < i)⟩ ∧
      (call_claude_with_tools (okBeh b) (okExec e) msgs).modelCalls = i + 1) ∧
    ((∀ j, j < 10 → hasToolUse (b j).content = true) →
      (call_claude_with_tools (okBeh b) (okExec e) msgs).result =
        .ok ⟨apology, msgs ++ roundsMsgs b e 10, true⟩ ∧
      (call_claude_with_tools (okBeh b) (okExec e) msgs).modelCalls = 10) ∧
    (call_claude_with_tools (okBeh b) (okExec e) msgs).modelCalls ≤ 10 := by
  refine ⟨?_, ?_, loopFrom_modelCalls_le (okExec e) 10 (okBeh b) false msgs⟩
  · intro i hi hpre hstop
    have hpre' : ∀ j, j < i → (b j).stop_tool_use = true :=
      fun j hj => by rw [hH j]; exact hpre j hj
    have hstop' : (b i).stop_tool_use = false := by rw [hH i]; exact hstop
    have h := loopFrom_done e i b false msgs 10 hpre' hstop' hi
    unfold call_claude_with_tools
    rw [h]
    simp
  · intro hpre
    have hpre' : ∀ j, j < 10 → (b j).stop_tool_use = true :=
      fun j hj => by rw [hH j]; exact hpre j hj
    have h := loopFrom_exhaust e 10 b false msgs hpre'
    unfold call_claude_with_tools
    rw [h]
    simp

/-- Witness for C1, applying it to a behavior that answers at once and to a
behavior that requests tools on all ten rounds. -/
theorem C1_round_budget_witness :
    ((call_claude_with_tools (okBeh behDone) (okExec sampleExec) []).result =
        .ok ⟨textOf (behDone 0).content,
          [] ++ roundsMsgs behDone sampleExec 0 ++
            [⟨"assistant", .str (textOf (behDone 0).content)⟩],
          decide (0 < 0)⟩ ∧
      (call_claude_with_tools (okBeh behDone) (okExec sampleExec) []).modelCalls = 0 + 1) ∧
    ((call_claude_with_tools (okBeh behAllTools) (okExec sampleExec) []).result =
        .ok ⟨apology, [] ++ roundsMsgs behAllTools sampleExec 10, true⟩ ∧
      (call_claude_with_tools (okBeh behAllTools) (okExec sampleExec) []).modelCalls = 10) :=
  ⟨(C1_round_budget behDone sampleExec [] behDone_honest).1 0 (by decide)
      (fun j hj => absurd hj (Nat.not_lt_zero j)) rfl,
   (C1_round_budget behAllTools sampleExec [] behAllTools_honest).2.1 (fun j hj => rfl)⟩

/-! ## Claim C5 -/

/-- C5 counterexample: with a model that immediately answers "hi", the stored
conversation after `/chat` ends with *two* identical assistant messages
carrying the final answer — the loop appends it once and the endpoint appends
`result["response"]` again — so the answer is not appended to the
Conversation as exactly one assistant message. -/
theorem C5_counterexample :
    (chat (okBeh behDone) (okExec sampleExec) [] "yo" none).2 =
      [("default",
        [⟨"user", .str "yo"⟩, ⟨"assistant", .str "ok"⟩, ⟨"assistant", .str "ok"⟩])] ∧
    ((storeGet (chat (okBeh behDone) (okExec sampleExec) [] "yo" none).2 "default").filter
      (fun m => m.role = "assistant" && m.content = .str "ok")).length = 2 := by
  constructor <;> decide

/-- C5 as amended: on a turn without tool-use blocks the loop concatenates
its text segments in emission order, appends them to its messages list as
exactly one assistant message and returns them with the `tool_used` flag;
the `/chat` endpoint then appends the returned answer once more, so the
stored Conversation ends with two identical assistant messages. -/
theorem C5_final_answer (b : Nat → ModelTurn) (e : PureExecFn) (msgs : List Message)
    (hH : Honest b) (i : Nat) (hi : i < 10)
    (hpre : ∀ j, j < i → hasToolUse (b j).content = true)
    (hstop : hasToolUse (b i).content = false) :
    (call_claude_with_tools (okBeh b) (okExec e) msgs).result =
      .ok ⟨textOf (b i).content,
        msgs ++ roundsMsgs b e i ++ [⟨"assistant", .str (textOf (b i).content)⟩],
        decide (0 < i)⟩ ∧
    ∀ (store : Store) (message : String) (cid : Option String),
      chat (okBeh b) (okExec e) store message cid =
        (.ok (textOf (b i).content) (decide (0 < i)) (convIdOf cid),
         storeSet store (convIdOf cid)
           (storeGet store (convIdOf cid) ++ [⟨"user", .str message⟩] ++ roundsMsgs b e i ++
             [⟨"assistant", .str (textOf (b i).content)⟩,
              ⟨"assistant", .str (textOf (b i).content)⟩])) := by
  have hpre' : ∀ j, j < i → (b j).stop_tool_use = true :=
    fun j hj => by rw [hH j]; exact hpre j hj
  have hstop' : (b i).stop_tool_use = false := by rw [hH i]; exact hstop
  constructor
  · have h := loopFrom_done e i b false msgs 10 hpre' hstop' hi
    unfold call_claude_with_tools
    rw [h]
    simp
  · intro store message cid
    have h := loopFrom_done e i b false
      (storeGet store (convIdOf cid) ++ [⟨"user", .str message⟩]) 10 hpre' hstop' hi
    simp only [chat, call_claude_with_tools]
    rw [h]
    simp [List.append_assoc]

/-- Witness for C5's amended theorem at a concrete one-tool behavior. -/
theorem C5_final_answer_witness :
    (call_claude_with_tools (okBeh behOneTool) (okExec sampleExec) []).result =
      .ok ⟨textOf (behOneTool 1).content,
        [] ++ roundsMsgs behOneTool sampleExec 1 ++
          [⟨"assistant", .str (textOf (behOneTool 1).content)⟩],
        decide (0 < 1)⟩ ∧
    chat (okBeh behOneTool) (okExec sampleExec) [] "yo" none =
      (.ok (textOf (behOneTool 1).content) (decide (0 < 1)) (convIdOf none),
       storeSet [] (convIdOf none)
         (storeGet [] (convIdOf none) ++ [⟨"user", .str "yo"⟩] ++
           roundsMsgs behOneTool sampleExec 1 ++
           [⟨"assistant", .str (textOf (behOneTool 1).content)⟩,
            ⟨"assistant", .str (textOf (behOneTool 1).content)⟩])) := by
  have h := C5_final_answer behOneTool sampleExec [] behOneTool_honest 1 (by decide)
    (fun j hj => by
      have hj0 : j = 0 := Nat.lt_one_iff.mp hj
      rw [hj0]
      rfl)
    rfl
  exact ⟨h.1, h.2 [] "yo" none⟩

/-! ## Claim C6 -/

/-- C6: if the loop run fails with an exception — the model call or a tool of
some round raising — the `/chat` endpoint returns an error object carrying
the conversation id, and the stored conversation holds exactly the prior
transcript, the new user message, and the paired messages of the rounds that
*completed*: no half-appended messages of the failed round are visible. -/
theorem C6_failed_round_atomicity (beh : Behavior) (exec : ExecFn) (store : Store)
    (message : String) (cid : Option String) (e0 : String)
    (hfail : (call_claude_with_tools beh exec
      (storeGet store (convIdOf cid) ++ [⟨"user", .str message⟩])).result = .error e0) :
    (chat beh exec store message cid).1 = .err ("Chat failed: " ++ e0) (convIdOf cid) ∧
    ∃ k, (∀ j, j < k → cleanToolRound beh exec j) ∧
      (chat beh exec store message cid).2 =
        storeSet store (convIdOf cid)
          (storeGet store (convIdOf cid) ++ [⟨"user", .str message⟩] ++
            roundsMsgsE beh exec k) := by
  unfold call_claude_with_tools at hfail
  obtain ⟨k, hclean, hmsgs⟩ := loopFrom_error_messages exec 10 beh false
    (storeGet store (convIdOf cid) ++ [⟨"user", .str message⟩]) e0 hfail
  constructor
  · simp only [chat, call_claude_with_tools, hfail]
  · refine ⟨k, hclean, ?_⟩
    simp only [chat, call_claude_with_tools, hfail]
    rw [hmsgs]

/-- Behavior whose first round requests a tool and whose second model call
raises. -/
def behThenCrash : Behavior := fun i =>
  if i = 0 then .ok sampleToolTurn else .error "boom"

/-- Witness for C6: one completed tool round, then the model API raises. -/
theorem C6_failed_round_atomicity_witness :
    (chat behThenCrash (okExec sampleExec) [] "hi" none).1 =
      .err ("Chat failed: " ++ "boom") (convIdOf none) ∧
    ∃ k, (∀ j, j < k → cleanToolRound behThenCrash (okExec sampleExec) j) ∧
      (chat behThenCrash (okExec sampleExec) [] "hi" none).2 =
        storeSet [] (convIdOf none)
          (storeGet [] (convIdOf none) ++ [⟨"user", .str "hi"⟩] ++
            roundsMsgsE behThenCrash (okExec sampleExec) k) :=
  C6_failed_round_atomicity behThenCrash (okExec sampleExec) [] "hi" none "boom" (by decide)

/-! ## Claim C7 -/

/-- C7: for a round whose turn requests invocations `[A, B, C]` in that order,
the tool results are exactly `[outcome(A), outcome(B), outcome(C)]` in
invocation order, each referencing its invocation's id (first conjunct, over
the round's block processing — execution is sequential, so completion latency
cannot reorder them); and the loop's transcript holds, for each tool round,
the assistant turn followed by exactly one user message carrying those
results (second conjunct). -/
theorem C7_outcomes_in_order (e : PureExecFn) :
    (∀ bs : List ContentBlock,
      (pureBlocks e bs).2.1 =
        (toolInvocations bs).map (fun c => (⟨c.id, e c.tool c.params⟩ : ToolResultBlock))) ∧
    (∀ (b : Nat → ModelTurn) (msgs : List Message) (i : Nat),
      Honest b → i < 10 → (∀ j, j < i → hasToolUse (b j).content = true) →
      hasToolUse (b i).content = false →
      (call_claude_with_tools (okBeh b) (okExec e) msgs).messages =
        msgs ++ (List.range i).flatMap (fun j =>
          [⟨"assistant", .blocks (b j).content⟩,
           ⟨"user", .results ((toolInvocations (b j).content).map
             (fun c => (⟨c.id, e c.tool c.params⟩ : ToolResultBlock)))⟩]) ++
        [⟨"assistant", .str (textOf (b i).content)⟩]) := by
  refine ⟨pureBlocks_results e, ?_⟩
  intro b msgs i hH hi hpre hstop
  have hpre' : ∀ j, j < i → (b j).stop_tool_use = true :=
    fun j hj => by rw [hH j]; exact hpre j hj
  have hstop' : (b i).stop_tool_use = false := by rw [hH i]; exact hstop
  have h := loopFrom_done e i b false msgs 10 hpre' hstop' hi
  unfold call_claude_with_tools
  rw [h]
  simp [roundsMsgs, toolRoundMsgs, pureBlocks_fst, pureBlocks_results]

/-- Witness for C7 at a concrete two-invocation round. -/
def twoToolTurn : ModelTurn :=
  ⟨true, [.tool_use "A" "get_shopping_list" [], .text "and", .tool_use "B" "list_recipes" []]⟩

/-- Behavior requesting two tools in one round, then answering. -/
def behTwoTools : Nat → ModelTurn := fun i => if i = 0 then twoToolTurn else sampleDoneTurn

theorem behTwoTools_honest : Honest behTwoTools := fun i => by cases i <;> rfl

/-- Witness for C7. -/
theorem C7_outcomes_in_order_witness :
    (pureBlocks sampleExec twoToolTurn.content).2.1 =
      (toolInvocations twoToolTurn.content).map
        (fun c => (⟨c.id, sampleExec c.tool c.params⟩ : ToolResultBlock)) ∧
    (call_claude_with_tools (okBeh behTwoTools) (okExec sampleExec) []).messages =
      [] ++ (List.range 1).flatMap (fun j =>
        [⟨"assistant", .blocks (behTwoTools j).content⟩,
         ⟨"user", .results ((toolInvocations (behTwoTools j).content).map
           (fun c => (⟨c.id, sampleExec c.tool c.params⟩ : ToolResultBlock)))⟩]) ++
      [⟨"assistant", .str (textOf (behTwoTools 1).content)⟩] :=
  ⟨(C7_outcomes_in_order sampleExec).1 twoToolTurn.content,
   (C7_outcomes_in_order sampleExec).2 behTwoTools [] 1 behTwoTools_honest (by decide)
     (fun j hj => by
       have hj0 : j = 0 := Nat.lt_one_iff.mp hj
       rw [hj0]
       rfl)
     rfl⟩

/-! ## Claim C8 -/

/-- C8: across a whole run, the executor receives exactly the tool
invocations the model emitted in its tool rounds, in order — each exactly
once, none skipped, none re-executed in a later round; under distinct ids
each invocation is counted once in the call trace. -/
theorem C8_exactly_once_execution (b : Nat → ModelTurn) (e : PureExecFn) (msgs : List Message)
    (hH : Honest b) :
    (∀ i, i < 10 → (∀ j, j < i → hasToolUse (b j).content = true) →
      hasToolUse (b i).content = false →
      (call_claude_with_tools (okBeh b) (okExec e) msgs).calls =
        (List.range i).flatMap (fun j => toolInvocations (b j).content)) ∧
    ((∀ j, j < 10 → hasToolUse (b j).content = true) →
      (call_claude_with_tools (okBeh b) (okExec e) msgs).calls =
        (List.range 10).flatMap (fun j => toolInvocations (b j).content)) ∧
    (∀ c : ToolInvocation,
      (call_claude_with_tools (okBeh b) (okExec e) msgs).calls.Nodup →
      c ∈ (call_claude_with_tools (okBeh b) (okExec e) msgs).calls →
      (call_claude_with_tools (okBeh b) (okExec e) msgs).calls.count c = 1) := by
  refine ⟨?_, ?_, fun c hnd hmem => List.count_eq_one_of_mem hnd hmem⟩
  · intro i hi hpre hstop
    have hpre' : ∀ j, j < i → (b j).stop_tool_use = true :=
      fun j hj => by rw [hH j]; exact hpre j hj
    have hstop' : (b i).stop_tool_use = false := by rw [hH i]; exact hstop
    have h := loopFrom_done e i b false msgs 10 hpre' hstop' hi
    unfold call_claude_with_tools
    rw [h]
    rfl
  · intro hpre
    have hpre' : ∀ j, j < 10 → (b j).stop_tool_use = true :=
      fun j hj => by rw [hH j]; exact hpre j hj
    have h := loopFrom_exhaust e 10 b false msgs hpre'
    unfold call_claude_with_tools
    rw [h]
    rfl

/-- Witness for C8 on the two-invocation round. -/
theorem C8_exactly_once_execution_witness :
    (call_claude_with_tools (okBeh behTwoTools) (okExec sampleExec) []).calls =
      (List.range 1).flatMap (fun j => toolInvocations (behTwoTools j).content) :=
  (C8_exactly_once_execution behTwoTools sampleExec [] behTwoTools_honest).1 1 (by decide)
    (fun j hj => by
      have hj0 : j = 0 := Nat.lt_one_iff.mp hj
      rw [hj0]
      rfl)
    rfl

/-! ## Claim C3 -/

/-- A fixed external world for counterexamples and witnesses. -/
def env0 : Env :=
  ⟨fun _ => none, .ok [], .ok [], .ok [], false, .ok [],
   .ok ⟨"", "", 0, 0, [], [], "", ""⟩, [], "t0", ⟨[], [], 1⟩, .ok (), .ok (), .ok ()⟩

/-- A behavior requesting an unknown tool on every round. -/
def behBogus : Nat → ModelTurn := fun _ => ⟨true, [.tool_use "t1" "bogus" []]⟩

/-- C3 counterexample: the model requests the unknown tool "bogus"; executing
it raises (`HTTPException(400)` escapes `execute_tool`), the orchestration
loop aborts with that exception — *no* structured error result is folded into
the transcript as a tool outcome (the messages list is unchanged) — and the
failure surfaces to the HTTP caller as the error object of `/chat` instead of
being shown to the model. -/
theorem C3_counterexample :
    execute_tool env0 ⟨"bogus", []⟩ = .error ("Unknown tool: " ++ "bogus") ∧
    (call_claude_with_tools (okBeh behBogus) (envExec env0) []).result =
      .error ("Unknown tool: " ++ "bogus") ∧
    (call_claude_with_tools (okBeh behBogus) (envExec env0) []).messages = [] ∧
    (chat (okBeh behBogus) (envExec env0) [] "hi" none).1 =
      .err ("Chat failed: " ++ "Unknown tool: " ++ "bogus") "default" := by
  refine ⟨by decide, by decide, by decide, by decide⟩

/-- C3 as amended: for every *known* tool name the executor never raises —
each adapter converts its failures into a structured error dictionary — and
validation is limited to the routing itself: an unknown tool name raises an
`HTTPException` that propagates out of the orchestration loop without
appending anything to the transcript (the model never sees it), and a missing
required parameter raises nothing: `params.get` silently substitutes a
default value and the tool runs. -/
theorem C3_executor_boundary :
    (∀ (env : Env) (req : ToolRequest), req.tool ∈ knownToolNames →
      (execute_tool env req).isOk = true) ∧
    (∀ (env : Env) (req : ToolRequest), req.tool ∉ knownToolNames →
      execute_tool env req = .error ("Unknown tool: " ++ req.tool)) ∧
    (∀ (beh : Behavior) (exec : ExecFn) (used : Bool) (msgs : List Message) (fuel : Nat)
      (t : ModelTurn) (e0 : String), beh 0 = .ok t → t.stop_tool_use = true →
      runBlocks exec t.content = .error e0 →
      loopFrom exec beh used msgs (fuel+1) = ⟨.error e0, msgs, [], 0, 1⟩) ∧
    (∀ (env : Env) (p : Params), execute_tool env ⟨"consume_stock", p⟩ =
      .ok (.consume (consume_stock (getStr p "product_name" "") (getNum p "amount" 0)
        (getBool p "spoiled" false) env.productsResp env.consumePost).1)) := by
  refine ⟨?_, ?_, ?_, ?_⟩
  · intro env req h
    simp only [knownToolNames, List.mem_cons, List.mem_singleton, List.not_mem_nil,
      or_false] at h
    rcases h with h | h | h | h | h | h | h | h | h | h | h <;>
      simp [execute_tool, h, Except.isOk, Except.toBool]
  · intro env req h
    simp only [knownToolNames, List.mem_cons, List.mem_singleton, List.not_mem_nil,
      or_false, not_or] at h
    obtain ⟨h1, h2, h3, h4, h5, h6, h7, h8, h9, h10, h11⟩ := h
    simp [execute_tool, h1, h2, h3, h4, h5, h6, h7, h8, h9, h10, h11]
  · intro beh exec used msgs fuel t e0 hb hs hr
    simp [loopFrom, hb, hs, hr]
  · intro env p
    simp [execute_tool]

/-- Witness for C3's amended theorem: a known tool returns a result, an
unknown one raises, a raising tool round aborts the loop with the messages
list unchanged, and `consume_stock` invoked with no parameters at all runs on
defaults instead of failing validation. -/
theorem C3_executor_boundary_witness :
    (execute_tool env0 ⟨"get_recipe", []⟩).isOk = true ∧
    execute_tool env0 ⟨"noSuchTool", []⟩ = .error ("Unknown tool: " ++ "noSuchTool") ∧
    loopFrom (envExec env0) (okBeh behBogus) false [] (9+1) =
      ⟨.error ("Unknown tool: " ++ "bogus"), [], [], 0, 1⟩ ∧
    execute_tool env0 ⟨"consume_stock", []⟩ =
      .ok (.consume (consume_stock (getStr [] "product_name" "") (getNum [] "amount" 0)
        (getBool [] "spoiled" false) env0.productsResp env0.consumePost).1) :=
  ⟨C3_executor_boundary.1 env0 ⟨"get_recipe", []⟩ (by decide),
   C3_executor_boundary.2.1 env0 ⟨"noSuchTool", []⟩ (by decide),
   C3_executor_boundary.2.2.1 (okBeh behBogus) (envExec env0) false [] 9
     (behBogus 0) ("Unknown tool: " ++ "bogus") rfl rfl (by decide),
   C3_executor_boundary.2.2.2 env0 []⟩

/-! ## Claim C2 -/

theorem substrCI_self (s : String) : substrCI s s = true := by
  simp only [substrCI, isSubChars, decide_eq_true_eq]
  exact List.infix_refl _

theorem findMatches_append (pn : String) (ps qs : List GrocyProduct) :
    findMatches pn (ps ++ qs) = findMatches pn ps ++ findMatches pn qs := by
  simp [findMatches]

/-- C2 counterexample: with an empty product catalog, `"widget"` has zero
matches, yet `add_stock` does not return a not-found error with no mutation —
it auto-creates the product and then mutates (location POST, product POST,
initial stock POST, purchase POST), reporting success. -/
theorem C2_counterexample :
    findMatches "widget" [] = [] ∧
    (add_stock "widget" 1 none none (.ok []) ⟨[], [], 7⟩ (.ok ())).1 =
      .ok ("Successfully added " ++ pyFloatStr 1 ++ " of \x27widget\x27 to inventory")
        "widget" 1 none none ∧
    (add_stock "widget" 1 none none (.ok []) ⟨[], [], 7⟩ (.ok ())).2 =
      [.locationPost "Pantry", .productPost "widget" 7 1 0, .initialStockPost 8,
       .addPost 8 1 none none] := by
  refine ⟨by decide, by decide, by decide⟩

/-- C2 as amended: every mutating tool resolves the free-text name by
case-insensitive substring match before mutating; zero matches make
`consume_stock` and `add_to_shopping_list` return a not-found error with no
mutation, but make `add_stock` auto-create the product and proceed to add
stock to it; more than one match makes all three return an ambiguity error
listing every candidate name, with no mutation; exactly one match proceeds
and reports the resolved exact catalog name (not the raw user text) back to
the caller. -/
theorem C2_name_resolution (pn : String) (products : List GrocyProduct) (amount : ℚ)
    (spoiled : Bool) (bbd : Option String) (price : Option ℚ) (obj : GrocyObjects) :
    (findMatches pn products = [] →
      consume_stock pn amount spoiled (.ok products) (.ok ()) =
        (.err ("Product \x27" ++ pn ++ "\x27 not found in Grocy"), []) ∧
      add_to_shopping_list pn amount (.ok products) (.ok ()) =
        (.err ("Product \x27" ++ pn ++ "\x27 not found in Grocy"), [])) ∧
    (findMatches pn products = [] →
      add_stock pn amount bbd price (.ok products) obj (.ok ()) =
        (.ok ("Successfully added " ++ pyFloatStr amount ++ " of \x27" ++ pn ++
            "\x27 to inventory") pn amount bbd price,
         (create_product pn "Pantry" "piece" 0 obj).2.1 ++
           [.addPost (create_product pn "Pantry" "piece" 0 obj).1.product_id
             amount bbd price])) ∧
    (∀ ms, findMatches pn products = ms → 1 < ms.length →
      consume_stock pn amount spoiled (.ok products) (.ok ()) =
        (.err ("Multiple products found: " ++ joinComma (ms.map (fun m => m.name)) ++
          ". Please be more specific."), []) ∧
      add_stock pn amount bbd price (.ok products) obj (.ok ()) =
        (.err ("Multiple products found: " ++ joinComma (ms.map (fun m => m.name)) ++
          ". Please be more specific."), []) ∧
      add_to_shopping_list pn amount (.ok products) (.ok ()) =
        (.err ("Multiple products found: " ++ joinComma (ms.map (fun m => m.name)) ++
          ". Please be more specific."), [])) ∧
    (∀ m, findMatches pn products = [m] →
      consume_stock pn amount spoiled (.ok products) (.ok ()) =
        (.ok ("Successfully consumed " ++ pyFloatStr amount ++ " of \x27" ++ m.name ++ "\x27")
          m.name amount spoiled, [.consumePost m.id amount spoiled]) ∧
      add_stock pn amount bbd price (.ok products) obj (.ok ()) =
        (.ok ("Successfully added " ++ pyFloatStr amount ++ " of \x27" ++ m.name ++
            "\x27 to inventory") m.name amount bbd price,
         [.addPost m.id amount bbd price]) ∧
      add_to_shopping_list pn amount (.ok products) (.ok ()) =
        (.ok ("Added " ++ pyFloatStr amount ++ " of \x27" ++ m.name ++ "\x27 to shopping list")
          m.name amount, [.shoppingPost m.id amount])) := by
  refine ⟨?_, ?_, ?_, ?_⟩
  · intro h
    constructor <;> simp [consume_stock, add_to_shopping_list, find_product_id_by_name, h]
  · intro h
    have hnew : findMatches pn
        (products ++ [⟨(create_product pn "Pantry" "piece" 0 obj).1.product_id, pn, 0⟩]) =
        [⟨(create_product pn "Pantry" "piece" 0 obj).1.product_id, pn⟩] := by
      rw [findMatches_append, h]
      simp [findMatches, substrCI_self]
    simp [add_stock, find_product_id_by_name, h, hnew, addStockWithMatches, Except.map]
  · intro ms hms hlen
    have hne : ms.isEmpty = false := by
      cases ms with
      | nil => simp at hlen
      | cons a tl => rfl
    refine ⟨?_, ?_, ?_⟩ <;>
      simp [consume_stock, add_stock, add_to_shopping_list, find_product_id_by_name,
        addStockWithMatches, hms, hne, hlen]
  · intro m hms
    refine ⟨?_, ?_, ?_⟩ <;>
      simp [consume_stock, add_stock, add_to_shopping_list, find_product_id_by_name,
        addStockWithMatches, hms]

/-- The two-entry catalog of the spec's ambiguity example. -/
def products2 : List GrocyProduct := [⟨1, "Salmon", 0⟩, ⟨2, "Canned Salmon", 0⟩]

/-- Witness for C2: `"tofu"` has zero matches (not-found, no mutation),
`"salmon"` matches both `"Salmon"` and `"Canned Salmon"` (ambiguity error
listing both, no mutation), `"canned salmon"` matches exactly
`"Canned Salmon"` (proceeds, reporting the exact catalog name). -/
theorem C2_name_resolution_witness :
    (consume_stock "tofu" 2 false (.ok products2) (.ok ()) =
        (.err ("Product \x27tofu\x27 not found in Grocy"), []) ∧
      add_to_shopping_list "tofu" 2 (.ok products2) (.ok ()) =
        (.err ("Product \x27tofu\x27 not found in Grocy"), [])) ∧
    consume_stock "salmon" 2 false (.ok products2) (.ok ()) =
      (.err ("Multiple products found: " ++
        joinComma ([(⟨1, "Salmon"⟩ : ProductMatch), ⟨2, "Canned Salmon"⟩].map
          (fun m => m.name)) ++ ". Please be more specific."), []) ∧
    consume_stock "canned salmon" 2 false (.ok products2) (.ok ()) =
      (.ok ("Successfully consumed " ++ pyFloatStr 2 ++ " of \x27" ++ "Canned Salmon" ++ "\x27")
        "Canned Salmon" 2 false, [.consumePost 2 2 false]) :=
  ⟨(C2_name_resolution "tofu" products2 2 false none none ⟨[], [], 9⟩).1 (by decide),
   ((C2_name_resolution "salmon" products2 2 false none none ⟨[], [], 9⟩).2.2.1
     [⟨1, "Salmon"⟩, ⟨2, "Canned Salmon"⟩] (by decide) (by decide)).1,
   ((C2_name_resolution "canned salmon" products2 2 false none none ⟨[], [], 9⟩).2.2.2
     ⟨2, "Canned Salmon"⟩ (by decide)).1⟩

/-! ## Claim C4 -/

theorem pyRound_le (q : ℚ) : pyRound q ≤ ⌊q⌋ + 1 := by
  simp only [pyRound]
  split_ifs <;> omega

theorem le_pyRound (q : ℚ) : ⌊q⌋ ≤ pyRound q := by
  simp only [pyRound]
  split_ifs <;> omega

theorem pyRound_mono {q r : ℚ} (h : q ≤ r) : pyRound q ≤ pyRound r := by
  rcases lt_or_eq_of_le (Int.floor_le_floor h) with hlt | heq
  · calc pyRound q ≤ ⌊q⌋ + 1 := pyRound_le q
      _ ≤ ⌊r⌋ := hlt
      _ ≤ pyRound r := le_pyRound r
  · simp only [pyRound, ← heq]
    have hqr : q - ((⌊q⌋ : ℤ) : ℚ) ≤ r - ((⌊q⌋ : ℤ) : ℚ) := by linarith
    split_ifs <;> first | omega | linarith

theorem pyRound_nonneg {q : ℚ} (hq : 0 ≤ q) : 0 ≤ pyRound q :=
  le_trans (Int.floor_nonneg.2 hq) (le_pyRound q)

theorem pyRound1_mono {q r : ℚ} (h : q ≤ r) : pyRound1 q ≤ pyRound1 r := by
  simp only [pyRound1]
  have h10 : q * 10 ≤ r * 10 := by linarith
  have h2 : ((pyRound (q * 10) : ℤ) : ℚ) ≤ ((pyRound (r * 10) : ℤ) : ℚ) := by
    exact_mod_cast pyRound_mono h10
  linarith

theorem pyRound1_nonneg {q : ℚ} (hq : 0 ≤ q) : 0 ≤ pyRound1 q := by
  simp only [pyRound1]
  have h : (0 : ℤ) ≤ pyRound (q * 10) := pyRound_nonneg (by linarith)
  have h2 : (0 : ℚ) ≤ ((pyRound (q * 10) : ℤ) : ℚ) := by exact_mod_cast h
  linarith

theorem frac_mono (u u' m : Nat) (h : u ≤ u') (h0 : 0 < u + m) (h0' : 0 < u' + m) :
    (u : ℚ) / ((u : ℚ) + (m : ℚ)) ≤ (u' : ℚ) / ((u' : ℚ) + (m : ℚ)) := by
  have hd : (0 : ℚ) < (u : ℚ) + (m : ℚ) := by exact_mod_cast h0
  have hd' : (0 : ℚ) < (u' : ℚ) + (m : ℚ) := by exact_mod_cast h0'
  rw [div_le_div_iff₀ hd hd']
  have hc : (u : ℚ) ≤ (u' : ℚ) := by exact_mod_cast h
  have hm : (0 : ℚ) ≤ (m : ℚ) := by positivity
  nlinarith

/-- C4: the match percentage of `search_recipes_by_ingredients` is
`round(used / (used + missed) * 100, 1)` with value `0` at `used+missed=0`
(conjuncts 1–2), is `100.0` when `missed = 0 < used` (conjunct 3), is
monotonically non-decreasing in `used` for fixed `missed` (conjunct 4), and
every entry of a successful search result carries exactly this percentage for
its own used/missed counts (conjunct 5). -/
theorem C4_match_percentage_law :
    (∀ used missed : Nat, match_percentage used missed =
      pyRound1 (if 0 < used + missed
        then (used : ℚ) / ((used : ℚ) + (missed : ℚ)) * 100 else 0)) ∧
    (∀ used missed : Nat, used + missed = 0 → match_percentage used missed = 0) ∧
    (∀ used : Nat, 0 < used → match_percentage used 0 = 100) ∧
    (∀ used used' missed : Nat, used ≤ used' →
      match_percentage used missed ≤ match_percentage used' missed) ∧
    (∀ (keySet : Bool) (resp : Except String (List RecipeHit)) (ing : String) (n : ℚ)
      (total : Nat) (rs : List SimplifiedRecipe) (r : SimplifiedRecipe),
      search_recipes_by_ingredients keySet resp ing n = .ok total rs → r ∈ rs →
      r.matchPercentage = match_percentage r.usedIngredients r.missedIngredients.length) := by
  refine ⟨fun u m => rfl, ?_, ?_, ?_, ?_⟩
  · intro u m h
    obtain ⟨hu, hm⟩ := Nat.add_eq_zero.mp h
    subst hu
    subst hm
    norm_num [match_percentage, pyRound1, pyRound]
  · intro u hu
    have hne : ((u : ℚ)) ≠ 0 := by
      exact_mod_cast Nat.pos_iff_ne_zero.mp hu
    simp only [match_percentage, Nat.add_zero, if_pos hu, Nat.cast_zero, add_zero]
    rw [div_self hne, one_mul]
    norm_num [pyRound1, pyRound]
  · intro u u' m h
    by_cases h0 : 0 < u + m
    · have h0' : 0 < u' + m := by omega
      simp only [match_percentage, if_pos h0, if_pos h0']
      apply pyRound1_mono
      have hfrac := frac_mono u u' m h h0 h0'
      nlinarith
    · have hu : u = 0 := by omega
      have hm : m = 0 := by omega
      subst hu
      subst hm
      have hL : match_percentage 0 0 = 0 := by
        norm_num [match_percentage, pyRound1, pyRound]
      rw [hL]
      by_cases hu' : 0 < u'
      · simp only [match_percentage, Nat.add_zero, if_pos hu', Nat.cast_zero, add_zero]
        apply pyRound1_nonneg
        positivity
      · have hz : u' = 0 := by omega
        subst hz
        norm_num [match_percentage, pyRound1, pyRound]
  · intro keySet resp ing n total rs r hok hr
    by_cases hk : keySet = false
    · rw [search_recipes_by_ingredients.eq_def, if_pos hk] at hok
      cases hok
    · rw [search_recipes_by_ingredients.eq_def, if_neg hk] at hok
      cases resp with
      | error e => cases hok
      | ok hits =>
        simp only [RecipeSearchResult.ok.injEq] at hok
        obtain ⟨-, hrs⟩ := hok
        subst hrs
        have hperm := List.perm_insertionSort recipeGE (hits.map (fun h =>
          (⟨h.id, h.title, h.image, h.usedIngredients.length,
            match_percentage h.usedIngredients.length h.missedIngredients.length,
            h.missedIngredients⟩ : SimplifiedRecipe)))
        have hmem := hperm.mem_iff.mp hr
        obtain ⟨hit, hhit, hre⟩ := List.mem_map.mp hmem
        rw [← hre]

/-- A one-hit Spoonacular response for the witness. -/
def hit1 : RecipeHit := ⟨10, "T", "img", ["a"], ["b"]⟩

/-- Witness for C4. -/
theorem C4_match_percentage_law_witness :
    match_percentage 0 0 = 0 ∧
    match_percentage 2 0 = 100 ∧
    match_percentage 1 2 ≤ match_percentage 3 2 ∧
    (⟨10, "T", "img", 1, match_percentage 1 1, ["b"]⟩ : SimplifiedRecipe).matchPercentage =
      match_percentage
        (⟨10, "T", "img", 1, match_percentage 1 1, ["b"]⟩ : SimplifiedRecipe).usedIngredients
        (⟨10, "T", "img", 1, match_percentage 1 1,
          ["b"]⟩ : SimplifiedRecipe).missedIngredients.length :=
  ⟨C4_match_percentage_law.2.1 0 0 rfl,
   C4_match_percentage_law.2.2.1 2 (by decide),
   C4_match_percentage_law.2.2.2.1 1 3 2 (by decide),
   C4_match_percentage_law.2.2.2.2 true (.ok [hit1]) "a" 3 1
     [⟨10, "T", "img", 1, match_percentage 1 1, ["b"]⟩]
     ⟨10, "T", "img", 1, match_percentage 1 1, ["b"]⟩ rfl (List.mem_singleton.mpr rfl)⟩

/-! ## Claim C9 -/

theorem condenseItems_pos (daysUntil : String → Option Int) (category : String) :
    ∀ (stock : List StockItem) (l : List PantryItem),
    condenseItems daysUntil category stock = .ok l → ∀ it ∈ l, 0 < it.amount := by
  intro stock
  induction stock with
  | nil =>
    intro l h it hit
    simp only [condenseItems, Except.ok.injEq] at h
    subst h
    cases hit
  | cons s rest ih =>
    intro l h it hit
    simp only [condenseItems] at h
    by_cases ha : s.amount_aggregated ≤ 0
    · rw [if_pos ha] at h
      exact ih l h it hit
    · rw [if_neg ha] at h
      split at h
      · cases h
      · exact ih l h it hit
      · split at h
        · cases h
        · rename_i tl heqtl
          simp only [Except.ok.injEq] at h
          subst h
          rcases List.mem_cons.mp hit with hhd | htl
          · subst hhd
            exact lt_of_not_le ha
          · exact ih tl heqtl it htl

/-- C9: for every category argument and every stock payload, a successful
`get_pantry_items` result contains only items with strictly positive amount,
and its `total_products` field equals the length of its `items` list. -/
theorem C9_pantry_items_invariant (daysUntil : String → Option Int) (category : String)
    (stockResp : Except String (List StockItem)) (total : Nat) (items : List PantryItem)
    (h : get_pantry_items daysUntil category stockResp = .ok total items) :
    (∀ it ∈ items, 0 < it.amount) ∧ total = items.length := by
  cases stockResp with
  | error e => simp [get_pantry_items] at h
  | ok stock =>
    simp only [get_pantry_items] at h
    cases hc : condenseItems daysUntil category stock with
    | error e => rw [hc] at h; cases h
    | ok l =>
      rw [hc] at h
      simp only [PantryItemsResult.ok.injEq] at h
      obtain ⟨htot, hitems⟩ := h
      subst hitems
      exact ⟨condenseItems_pos daysUntil category stock l hc, htot.symm⟩

/-- A date oracle that fails on every string (unused by the witness's "all"
category). -/
def daysUntilNone : String → Option Int := fun _ => none

/-- A two-item stock payload: one positive amount, one zero amount. -/
def stockW : List StockItem := [⟨"Milk", 0, 2, 0, none⟩, ⟨"Egg", 0, 0, 0, none⟩]

/-- Witness for C9: the zero-amount item is dropped and the count matches. -/
theorem C9_pantry_items_invariant_witness :
    (∀ it ∈ [(⟨"Milk", 2, "N/A"⟩ : PantryItem)], 0 < it.amount) ∧
    1 = [(⟨"Milk", 2, "N/A"⟩ : PantryItem)].length :=
  C9_pantry_items_invariant daysUntilNone "all" (.ok stockW) 1
    [⟨"Milk", 2, "N/A"⟩] (by decide)

/-! ## Claim C10 -/

theorem mem_replaceChar_slash_space (l : List Char) :
    '/' ∈ replaceChar ' ' '_' l ↔ '/' ∈ l := by
  simp only [replaceChar, List.mem_map]
  constructor
  · rintro ⟨a, ha, he⟩
    by_cases hsp : a = ' '
    · rw [if_pos hsp] at he
      cases he
    · rw [if_neg hsp] at he
      exact he ▸ ha
  · intro hm
    exact ⟨'/', hm, by decide⟩

theorem replaceChar_not_mem (c d : Char) (l : List Char) (h : c ∉ l) :
    replaceChar c d l = l := by
  induction l with
  | nil => rfl
  | cons a tl ih =>
    simp only [List.mem_cons, not_or] at h
    simp only [replaceChar, List.map_cons]
    rw [if_neg (fun he => h.1 he.symm)]
    simp only [replaceChar] at ih
    rw [ih h.2]

theorem mem_withTxtExt (c : Char) (hc : c ∉ ".txt".data) (l : List Char) :
    c ∈ withTxtExt l ↔ c ∈ l := by
  unfold withTxtExt
  split_ifs
  · exact Iff.rfl
  · simp [List.mem_append, hc]

theorem slash_not_mem_replaceChar (l : List Char) : '/' ∉ replaceChar '/' '_' l := by
  simp only [replaceChar, List.mem_map]
  rintro ⟨a, ha, he⟩
  by_cases hsl : a = '/'
  · rw [if_pos hsl] at he
    cases he
  · rw [if_neg hsl] at he
    exact hsl he

/-- C10: `save_recipe` and `get_recipe` both derive the filename by
lowercasing and replacing spaces with underscores, but only `save_recipe`
also replaces `"/"`.  For a recipe name whose lowercased form has no `"/"`,
the filenames agree and a save followed by a get succeeds, returning a
content string containing the saved content; for a name containing `"/"`,
the filenames differ and the retrieval misses the just-saved file. -/
theorem C10_recipe_roundtrip (recipe_name recipe_content timestamp : String) (fs : Fs) :
    ('/' ∉ lowerChars recipe_name →
      save_filename recipe_name = get_filename recipe_name ∧
      get_recipe recipe_name (save_recipe recipe_name recipe_content timestamp fs).2 =
        .ok recipe_name (saveRecipeContent recipe_name recipe_content timestamp) ∧
      recipe_content.data <:+:
        (saveRecipeContent recipe_name recipe_content timestamp).data) ∧
    ('/' ∈ lowerChars recipe_name →
      save_filename recipe_name ≠ get_filename recipe_name ∧
      get_recipe recipe_name (save_recipe recipe_name recipe_content timestamp []).2 =
        .notFound ("Recipe \x27" ++ recipe_name ++ "\x27 not found")
          (availableRecipes (save_recipe recipe_name recipe_content timestamp []).2)) := by
  constructor
  · intro h
    have hx : '/' ∉ lowerUnderscore recipe_name :=
      fun hm => h ((mem_replaceChar_slash_space _).mp hm)
    have heqn : save_filename recipe_name = get_filename recipe_name := by
      unfold save_filename get_filename
      rw [replaceChar_not_mem _ _ _ hx]
    refine ⟨heqn, ?_, ?_⟩
    · simp only [get_recipe, save_recipe, fsWrite, fsRead, ← heqn]
      simp [List.find?]
    · refine ⟨("# " ++ pyTitle recipe_name ++ "\n# Created: " ++ timestamp ++
        "\n# Source: PantryBot\n\n").data, "\n".data, ?_⟩
      simp [saveRecipeContent, String.data_append, List.append_assoc]
  · intro h
    have hx : '/' ∈ lowerUnderscore recipe_name := (mem_replaceChar_slash_space _).mpr h
    have hget : '/' ∈ get_filename recipe_name := (mem_withTxtExt '/' (by decide) _).mpr hx
    have hsave : '/' ∉ save_filename recipe_name :=
      fun hm => slash_not_mem_replaceChar _ ((mem_withTxtExt '/' (by decide) _).mp hm)
    have hne : save_filename recipe_name ≠ get_filename recipe_name :=
      fun he => hsave (he ▸ hget)
    refine ⟨hne, ?_⟩
    simp only [get_recipe, save_recipe, fsWrite, fsRead]
    simp [List.find?, hne]

/-- Witness for C10: `"Tacos"` round-trips; `"a/b"` is saved under
`a_b.txt` but looked up under `a/b.txt` and missed. -/
theorem C10_recipe_roundtrip_witness :
    (save_filename "Tacos" = get_filename "Tacos" ∧
      get_recipe "Tacos" (save_recipe "Tacos" "meat" "t0" []).2 =
        .ok "Tacos" (saveRecipeContent "Tacos" "meat" "t0") ∧
      "meat".data <:+: (saveRecipeContent "Tacos" "meat" "t0").data) ∧
    (save_filename "a/b" ≠ get_filename "a/b" ∧
      get_recipe "a/b" (save_recipe "a/b" "x" "t0" []).2 =
        .notFound ("Recipe \x27" ++ "a/b" ++ "\x27 not found")
          (availableRecipes (save_recipe "a/b" "x" "t0" []).2)) :=
  ⟨(C10_recipe_roundtrip "Tacos" "meat" "t0" []).1 (by decide),
   (C10_recipe_roundtrip "a/b" "x" "t0" []).2 (by decide)⟩
